import Mathlib

/-!
Shallow embedding of the trigger-log error classification and fixing engine of
django-heroku-connect (heroku_connect/models.py, heroku_connect/errors.py, and the
older snapshots under heroku_connect/db/models/), together with proofs about it.
-/

namespace HerokuConnect

/-- TriggerLogAbstract.Action (heroku_connect/models.py lines 106-119). -/
inductive Action where
  | INSERT
  | UPDATE
  | DELETE
deriving DecidableEq, Repr

/-- TriggerLogAbstract.State (heroku_connect/models.py lines 121-142). -/
inductive State where
  | SUCCESS
  | MERGED
  | IGNORED
  | FAILED
  | READONLY
  | NEW
  | IGNORE
  | PENDING
  | REQUEUE
  | REQUEUED
deriving DecidableEq, Repr

/-- A row of the trigger log (live or archive partition).  Fields follow
TriggerLogAbstract (heroku_connect/models.py lines 144-161); `is_archived`
records which concrete subclass (TriggerLog / TriggerLogArchive) the row
belongs to. -/
structure TriggerLog where
  id : Int
  created_at : Int
  table_name : String
  record_id : Int
  action : Action
  state : State
  sf_message : Option String := none
  is_archived : Bool := false
deriving DecidableEq, Repr

/-- A row of the ErrorTrack table (heroku_connect/models.py lines 364-399). -/
structure ErrorTrack where
  trigger_log_id : Int
  created_at : Int
  table_name : String
  record_id : Int
  action : Action
  state : State
  sf_message : Option String
  is_initial : Bool
deriving DecidableEq, Repr

/-- The relational store: the two trigger-log partitions and the ErrorTrack table. -/
structure Database where
  trigger_log : List TriggerLog
  trigger_log_archive : List TriggerLog
  error_tracks : List ErrorTrack
deriving DecidableEq, Repr

/-- `type(trigger_log)._default_manager`: the partition the given row lives in. -/
def partitionList (db : Database) (trigger_log : TriggerLog) : List TriggerLog :=
  if trigger_log.is_archived then db.trigger_log_archive else db.trigger_log

/-- ErrorTrackQuerySet.of_log (heroku_connect/models.py lines 330-332):
`self.filter(trigger_log_id=log.id)`. -/
def of_log (db : Database) (log : TriggerLog) : List ErrorTrack :=
  db.error_tracks.filter (fun t => t.trigger_log_id == log.id)

/-- FixableHerokuModelSyncError.FIXABLE_ACTIONS (heroku_connect/errors.py line 50). -/
def FIXABLE_ACTIONS : List Action := [Action.INSERT, Action.UPDATE]

/-- FixableHerokuModelSyncError.FIXABLE_STATES (heroku_connect/errors.py line 51). -/
def FIXABLE_STATES : List State := [State.FAILED]

/-- FixableHerokuModelSyncError.may_fix (heroku_connect/errors.py lines 53-59). -/
def may_fix (db : Database) (trigger_log : TriggerLog) : Bool :=
  FIXABLE_ACTIONS.contains trigger_log.action &&
  FIXABLE_STATES.contains trigger_log.state &&
  (of_log db trigger_log).isEmpty

/-- The polymorphic classification result: HerokuModelSyncError.__new__ picks the
FixableHerokuModelSyncError subclass iff may_fix holds (heroku_connect/errors.py
lines 23-26). -/
inductive SyncError where
  | Fixable (trigger_log : TriggerLog)
  | Unfixable (trigger_log : TriggerLog)
deriving DecidableEq, Repr

/-- HerokuModelSyncError.__new__ (heroku_connect/errors.py lines 23-26). -/
def classify (db : Database) (trigger_log : TriggerLog) : SyncError :=
  if may_fix db trigger_log then SyncError.Fixable trigger_log
  else SyncError.Unfixable trigger_log

/-- Whether two log rows concern the same connected record: the
`table_name=OuterRef` and `record_id=OuterRef` part of the subqueries in
TriggerLogQuerySet.initial_failures. -/
def relatedTo (e outer : TriggerLog) : Bool :=
  e.table_name == outer.table_name && e.record_id == outer.record_id

/-- Comparison under the model default ordering `('-created_at', '-id')`
(TriggerLogAbstract.Meta, heroku_connect/models.py line 168): `b` sorts before `a`. -/
def sortsAfter (a b : TriggerLog) : Bool :=
  a.created_at < b.created_at || (a.created_at == b.created_at && a.id < b.id)

/-- First row of a queryset under the default ordering (ORDER BY created_at DESC, id DESC
LIMIT 1, which is what the sliced `.values(...)[:1]` compiles to given Meta.ordering). -/
def firstUnderDefaultOrdering : List TriggerLog → Option TriggerLog
  | [] => none
  | x :: xs =>
    match firstUnderDefaultOrdering xs with
    | none => some x
    | some b => if sortsAfter x b then some b else some x

/-- One of the four sliced subqueries over state, table_name, record_id and id__lt
with which TriggerLogQuerySet.initial_failures annotates each row
(heroku_connect/models.py lines 33-64), taking the source table as a parameter. -/
def previousIdSubquery (source : List TriggerLog) (st : State) (outer : TriggerLog) :
    Option Int :=
  (firstUnderDefaultOrdering (source.filter
    (fun e => e.state == st && relatedTo e outer && e.id < outer.id))).map
    (fun e => e.id)

/-- SQL three-valued `a > b` where either side may be NULL: NULL comparisons are not true,
matching how the `__gt` lookups behave on the nullable annotations. -/
def nullGt : Option Int → Option Int → Bool
  | some a, some b => decide (b < a)
  | _, _ => false

/-- The filter body applied by TriggerLogQuerySet.initial_failures
(heroku_connect/models.py lines 66-75) to each already-`failed()` row.
Note the source assigns `previous_archived_success_id` a subquery over
`TriggerLog.objects` (lines 57-63), not `TriggerLogArchive.objects`. -/
def initialFailureCondition (db : Database) (e : TriggerLog) : Bool :=
  let previous_failure_id := previousIdSubquery db.trigger_log State.FAILED e
  let previous_archived_failure_id :=
    previousIdSubquery db.trigger_log_archive State.FAILED e
  let previous_success_id := previousIdSubquery db.trigger_log State.SUCCESS e
  let previous_archived_success_id :=
    previousIdSubquery db.trigger_log State.SUCCESS e
  (previous_failure_id.isNone && previous_archived_failure_id.isNone) ||
  nullGt previous_success_id previous_failure_id ||
  nullGt previous_success_id previous_archived_failure_id ||
  nullGt previous_archived_success_id previous_failure_id ||
  nullGt previous_archived_success_id previous_archived_failure_id

/-- TriggerLogQuerySet.initial_failures (heroku_connect/models.py lines 22-76): the
queryset `qs` it is invoked on, restricted by `.failed()` and the annotation filter.
The `order_by` in the source affects only row order, not membership. -/
def initial_failures (db : Database) (qs : List TriggerLog) : List TriggerLog :=
  (qs.filter (fun e => e.state == State.FAILED)).filter (initialFailureCondition db)

/-- Modelled from the spec: the Initial-Failure Detector of section 4.5, which is also
the oracle `expect_initial_failure` of tests/test_triggerlog.py — an entry is initial
iff it is Failed and every earlier Failed entry of the same record (in either
partition) is followed by a later Success entry of that record. -/
def isInitialFailureSpec (db : Database) (e : TriggerLog) : Bool :=
  e.state == State.FAILED &&
  ((db.trigger_log ++ db.trigger_log_archive).filter
      (fun f => f.state == State.FAILED && relatedTo f e && f.id < e.id)).all
    (fun f => (db.trigger_log ++ db.trigger_log_archive).any
      (fun s => s.state == State.SUCCESS && relatedTo s e && f.id < s.id))

/-- Django QuerySet.get_or_create on `trigger_log_id` (the unique column,
heroku_connect/models.py line 384): return the existing row untouched with
`created=False`, or insert the defaults row and return it with `created=True`. -/
def get_or_create (db : Database) (trigger_log_id : Int) (defaults : ErrorTrack) :
    ErrorTrack × Bool × Database :=
  match db.error_tracks.find? (fun t => t.trigger_log_id == trigger_log_id) with
  | some t => (t, false, db)
  | none =>
    let t := { defaults with trigger_log_id := trigger_log_id }
    (t, true, { db with error_tracks := db.error_tracks ++ [t] })

/-- The `_defaults` dict of ErrorTrackManager.get_or_create_for_log: the field values
copied over from the trigger log row (heroku_connect/models.py lines 350-353). -/
def copiedDefaults (trigger_log : TriggerLog) : ErrorTrack :=
  { trigger_log_id := trigger_log.id
    created_at := trigger_log.created_at
    table_name := trigger_log.table_name
    record_id := trigger_log.record_id
    action := trigger_log.action
    state := trigger_log.state
    sf_message := trigger_log.sf_message
    is_initial := false }

/-- ErrorTrackManager.get_or_create_for_log (heroku_connect/models.py lines 346-356).
`is_initial = none` models the `is_initial=None` default, recomputed from
`initial_failures` of the row's own manager; `defaults` models the `**defaults`
keyword overrides applied by `_defaults.update(defaults)` — note `is_initial` is
written after them, so they can never override it. -/
def get_or_create_for_log (db : Database) (trigger_log : TriggerLog)
    (is_initial : Option Bool) (defaults : ErrorTrack → ErrorTrack) :
    ErrorTrack × Bool × Database :=
  let is_initial := match is_initial with
    | some b => b
    | none =>
      (initial_failures db (partitionList db trigger_log)).any
        (fun l => l.id == trigger_log.id)
  get_or_create db trigger_log.id
    { defaults (copiedDefaults trigger_log) with is_initial := is_initial }

/-- The ErrorTrack row built by the `created=True` branch of get_or_create_for_log. -/
def mkTrackFor (trigger_log : TriggerLog) (b : Bool) (defaults : ErrorTrack → ErrorTrack) :
    ErrorTrack :=
  { { defaults (copiedDefaults trigger_log) with is_initial := b } with
    trigger_log_id := trigger_log.id }

/-- A model field as returned by `type(model)._meta.get_fields()`: relation objects
carry no `attname` attribute, concrete fields do (`hasattr(f, ...)` check in
heroku_connect/errors.py line 118). -/
structure ModelField where
  name : String
  attname : Option String
deriving DecidableEq, Repr

/-- The connected model instance as far as the fixers read it. -/
structure ConnectedModel where
  fields : List ModelField
deriving DecidableEq, Repr

/-- The collaborators FixableHerokuModelSyncError.fix relies on: the record accessor
(`trigger_log.get_model()`, None when the record no longer exists) and the capture
gateway (`trigger_log.capture_insert` / `trigger_log.capture_update`, returning the
newly created live log rows). -/
structure FixEnv where
  get_model : Option ConnectedModel
  capture_insert : List String → List TriggerLog
  capture_update : List String → List TriggerLog

/-- Externally visible calls a fix performs, in order. -/
inductive FixStep where
  | capture_insert_call (exclude_fields : List String)
  | capture_update_call (update_fields : List String)
  | model_save (update_fields : List String)
deriving DecidableEq, Repr

/-- Exceptions fix can raise; an exception aborts and rolls back the transaction. -/
inductive FixErr where
  | value_error
  | does_not_exist
  | attribute_error
deriving DecidableEq, Repr

/-- The `include` set comprehension of FixableHerokuModelSyncError._fix_update
(heroku_connect/errors.py lines 116-119): field names whose name is not excluded and
whose attname (when present) is not excluded. -/
def includedFieldNames (fields : List ModelField) (exclude : List String) : List String :=
  (fields.filter (fun f =>
    !(exclude.contains f.name ||
      (match f.attname with
       | some a => exclude.contains a
       | none => false)))).map (fun f => f.name)

/-- FixableHerokuModelSyncError._fix_update (heroku_connect/errors.py lines 109-131),
returning the captured log rows and the calls performed.  `update_model` is the dict
as an association list; `exclude = set(delay_fields) | update_model.keys()` is kept
as a concatenated membership list. -/
def fix_update (env : FixEnv) (delay_fields : List String)
    (update_model : List (String × String)) :
    Except FixErr (List TriggerLog × List FixStep) :=
  let exclude := delay_fields ++ update_model.map Prod.fst
  if exclude.isEmpty then
    Except.ok (env.capture_update [], [FixStep.capture_update_call []])
  else
    match env.get_model with
    | none => Except.error FixErr.attribute_error
    | some model =>
      let includeFields := includedFieldNames model.fields exclude
      let captured :=
        if includeFields.isEmpty then ([], [])
        else (env.capture_update includeFields,
              [FixStep.capture_update_call includeFields])
      let saveSteps :=
        if update_model.isEmpty then ([] : List FixStep)
        else [FixStep.model_save (update_model.map Prod.fst)]
      Except.ok (captured.1, captured.2 ++ saveSteps)

/-- FixableHerokuModelSyncError._fix_insert (heroku_connect/errors.py lines 96-107). -/
def fix_insert (env : FixEnv) (delay_fields : List String)
    (update_model : List (String × String)) :
    Except FixErr (List TriggerLog × List FixStep) :=
  let exclude := delay_fields ++ update_model.map Prod.fst
  let first := env.capture_insert exclude
  if delay_fields.isEmpty && update_model.isEmpty then
    Except.ok (first, [FixStep.capture_insert_call exclude])
  else
    match fix_update env [] update_model with
    | Except.error e => Except.error e
    | Except.ok (more, steps) =>
      Except.ok (first ++ more, FixStep.capture_insert_call exclude :: steps)

/-- The final loop of fix (heroku_connect/errors.py lines 93-94): give every log row
returned by the fixer its own ErrorTrack with `is_initial=False`. -/
def trackResults (results : List TriggerLog) (db : Database) : Database :=
  results.foldl
    (fun d log => (get_or_create_for_log d log (some false) (fun t => t)).2.2) db

/-- FixableHerokuModelSyncError.fix (heroku_connect/errors.py lines 61-94).
`trigger_log` is the possibly stale instance held by the error object.  The locked
re-read is `select_for_update().get(id=trigger_log.id)` — by id only.  On success the
committed database and the list of performed calls are returned; an exception rolls
the transaction back, so no database is returned. -/
def fix (env : FixEnv) (db : Database) (trigger_log : TriggerLog)
    (delay_fields : List String) (update_model : List (String × String)) :
    Except FixErr (Database × List FixStep) :=
  if !(trigger_log.action == Action.INSERT || trigger_log.action == Action.UPDATE) then
    Except.error FixErr.value_error
  else
    match (partitionList db trigger_log).find? (fun l => l.id == trigger_log.id) with
    | none => Except.error FixErr.does_not_exist
    | some locked =>
      match get_or_create_for_log db locked (some true) (fun t => t) with
      | (_, false, db1) => Except.ok (db1, [])
      | (_, true, db1) =>
        match (if trigger_log.action == Action.INSERT then
                 fix_insert env delay_fields update_model
               else
                 fix_update env delay_fields update_model) with
        | Except.error e => Except.error e
        | Except.ok (results, steps) =>
          Except.ok
            (trackResults results { db1 with trigger_log := db1.trigger_log ++ results },
             steps)

/-- Exceptions of the capture class methods. -/
inductive CaptureExc where
  | lookup_error
  | field_does_not_exist
deriving DecidableEq, Repr

/-- The collaborators of TriggerLogAbstract.capture_insert_from_model /
capture_update_from_model (heroku_connect/models.py lines 172-245).
`connected_tables` and `get_column` are modelled from the spec: they stand for the
global model registry `hc_models.registry` (whose module is not part of the sources;
`get_class_for_table_name` raises LookupError for a table name with no connected
model, as utils.get_connected_model_for_table_name does) and for
`model_cls._meta.get_field(name).column` (FieldDoesNotExist for unknown names).
`run_capture_insert` / `run_capture_update` stand for the raw SQL invoking the
stored procedures; they are exercised for any table name, connected or not. -/
structure CaptureEnv where
  connected_tables : List String
  get_column : String → String → Option String
  run_capture_insert : String → Int → List String → List TriggerLog
  run_capture_update : String → Int → List String → List TriggerLog

/-- TriggerLogAbstract._fieldnames_to_colnames (heroku_connect/models.py lines 285-290). -/
def fieldnamesToColnames (env : CaptureEnv) (table_name : String)
    (fieldnames : List String) : Except CaptureExc (List String) :=
  fieldnames.mapM (fun n =>
    match env.get_column table_name n with
    | some c => Except.ok c
    | none => Except.error CaptureExc.field_does_not_exist)

/-- TriggerLogAbstract.capture_insert_from_model (heroku_connect/models.py lines
172-208): the registry lookup happens only under `if exclude_fields:`. -/
def capture_insert_from_model (env : CaptureEnv) (table_name : String) (record_id : Int)
    (exclude_fields : List String) : Except CaptureExc (List TriggerLog) :=
  match (if exclude_fields.isEmpty then Except.ok []
         else if env.connected_tables.contains table_name then
           fieldnamesToColnames env table_name exclude_fields
         else Except.error CaptureExc.lookup_error : Except CaptureExc (List String)) with
  | Except.error e => Except.error e
  | Except.ok exclude_cols =>
    Except.ok (env.run_capture_insert table_name record_id exclude_cols)

/-- TriggerLogAbstract.capture_update_from_model (heroku_connect/models.py lines
210-245): the registry lookup happens only under `if update_fields:`. -/
def capture_update_from_model (env : CaptureEnv) (table_name : String) (record_id : Int)
    (update_fields : List String) : Except CaptureExc (List TriggerLog) :=
  match (if update_fields.isEmpty then Except.ok []
         else if env.connected_tables.contains table_name then
           fieldnamesToColnames env table_name update_fields
         else Except.error CaptureExc.lookup_error : Except CaptureExc (List String)) with
  | Except.error e => Except.error e
  | Except.ok include_cols =>
    Except.ok (env.run_capture_update table_name record_id include_cols)

/-- ErrorTrack.log (heroku_connect/models.py lines 408-418): live lookup first,
archive fallback, None when the id is in neither partition. -/
def trackLog (db : Database) (track : ErrorTrack) : Option TriggerLog :=
  match db.trigger_log.find? (fun l => l.id == track.trigger_log_id) with
  | some l => some l
  | none => db.trigger_log_archive.find? (fun l => l.id == track.trigger_log_id)

/-- Python exception surfaced by the older snapshot of the property. -/
inductive PyExc where
  | attribute_error
deriving DecidableEq, Repr

/-- ErrorTrack.log as written in heroku_connect/db/models/errors.py lines 205-215:
when the live lookup comes back None, the fallback evaluates
`TriggerLogArchive.filter(...)` — the model class itself, on which no `filter`
attribute exists — so the archive branch raises AttributeError instead. -/
def trackLogDbSnapshot (db : Database) (track : ErrorTrack) :
    Except PyExc (Option TriggerLog) :=
  match db.trigger_log.find? (fun l => l.id == track.trigger_log_id) with
  | some l => Except.ok (some l)
  | none => Except.error PyExc.attribute_error

/-- Builds a log row for the concrete scenarios below (created_at follows id). -/
def mkLog (id : Int) (action : Action) (state : State) (is_archived : Bool) :
    TriggerLog :=
  { id := id, created_at := id, table_name := "t", record_id := 1,
    action := action, state := state, sf_message := none, is_archived := is_archived }

/-- History where an archived SUCCESS resolves an archived failure: archive holds
a FAILED row id 1 and a SUCCESS row id 2, live holds the FAILED row id 5. -/
def exDbArchSuccess : Database :=
  { trigger_log := [mkLog 5 Action.UPDATE State.FAILED false]
    trigger_log_archive :=
      [mkLog 1 Action.UPDATE State.FAILED true, mkLog 2 Action.UPDATE State.SUCCESS true]
    error_tracks := [] }

/-- The synthetic single-record history of the spec's testable property:
ids 0,1,2 SUCCESS and ids 3,4 FAILED, all in the live partition. -/
def exDbStreak : Database :=
  { trigger_log :=
      [mkLog 0 Action.UPDATE State.SUCCESS false, mkLog 1 Action.UPDATE State.SUCCESS false,
       mkLog 2 Action.UPDATE State.SUCCESS false, mkLog 3 Action.UPDATE State.FAILED false,
       mkLog 4 Action.UPDATE State.FAILED false]
    trigger_log_archive := []
    error_tracks := [] }

/-- History with a resolved live failure (id 1, resolved by the SUCCESS id 2) and an
unresolved archived failure (id 3) before the FAILED row id 5. -/
def exDbUnresolvedArch : Database :=
  { trigger_log :=
      [mkLog 1 Action.UPDATE State.FAILED false, mkLog 2 Action.UPDATE State.SUCCESS false,
       mkLog 5 Action.UPDATE State.FAILED false]
    trigger_log_archive := [mkLog 3 Action.UPDATE State.FAILED true]
    error_tracks := [] }

/-- A fix environment whose collaborators produce nothing. -/
def trivFixEnv : FixEnv :=
  { get_model := some { fields := [] }
    capture_insert := fun _ => []
    capture_update := fun _ => [] }

/-- Store for the C3 scenario: the row with id 1 changed state to SUCCESS after it was
classified, and no ErrorTrack exists. -/
def exDbRaced : Database :=
  { trigger_log := [mkLog 1 Action.INSERT State.SUCCESS false]
    trigger_log_archive := []
    error_tracks := [] }

/-- The stale FAILED instance of row id 1 held by the error object in the C3 scenario. -/
def exStaleLog : TriggerLog := mkLog 1 Action.INSERT State.FAILED false

/-- Store for the C5 scenario: two consecutive FAILED rows for one record, so the
later one (id 2) is not an initial failure per the detector. -/
def exDbSecondFailure : Database :=
  { trigger_log := [mkLog 1 Action.INSERT State.FAILED false,
                    mkLog 2 Action.INSERT State.FAILED false]
    trigger_log_archive := []
    error_tracks := [] }

/-- The second FAILED row of exDbSecondFailure. -/
def exSecondFailure : TriggerLog := mkLog 2 Action.INSERT State.FAILED false

/-- Store for the idempotency scenario: one FAILED INSERT row, no tracks. -/
def exDbFailedInsert : Database :=
  { trigger_log := [mkLog 1 Action.INSERT State.FAILED false]
    trigger_log_archive := []
    error_tracks := [] }

/-- The FAILED INSERT row of exDbFailedInsert. -/
def exFailedInsert : TriggerLog := mkLog 1 Action.INSERT State.FAILED false

/-- A fix environment with a two-field connected model. -/
def twoFieldFixEnv : FixEnv :=
  { get_model := some { fields :=
      [{ name := "amount", attname := some "amount" },
       { name := "other", attname := some "other" }] }
    capture_insert := fun _ => []
    capture_update := fun _ => [] }

/-- A capture environment with no connected models whose raw capture calls return
nothing; the physical table may well exist, connectedness is a registry property. -/
def emptyCaptureEnv : CaptureEnv :=
  { connected_tables := []
    get_column := fun _ _ => none
    run_capture_insert := fun _ _ _ => []
    run_capture_update := fun _ _ _ => [] }

/-- Store for the ErrorTrack.log scenarios: id 1 lives only in the live partition,
id 7 only in the archive, id 5 in both, id 9 in neither. -/
def exDbLogLookup : Database :=
  { trigger_log := [mkLog 1 Action.INSERT State.FAILED false,
                    mkLog 5 Action.UPDATE State.FAILED false]
    trigger_log_archive := [mkLog 7 Action.UPDATE State.FAILED true,
                            mkLog 5 Action.UPDATE State.SUCCESS true]
    error_tracks := [] }

/-- An ErrorTrack whose trigger_log_id is the given id, other fields fixed. -/
def mkTrack (trigger_log_id : Int) : ErrorTrack :=
  { trigger_log_id := trigger_log_id, created_at := 0, table_name := "t", record_id := 1,
    action := Action.UPDATE, state := State.FAILED, sf_message := none, is_initial := true }

/-- The ErrorTrack a fix of exFailedInsert creates. -/
def exTrackFixedOnce : ErrorTrack :=
  { trigger_log_id := 1, created_at := 1, table_name := "t", record_id := 1,
    action := Action.INSERT, state := State.FAILED, sf_message := none, is_initial := true }

/-- exDbFailedInsert after one completed fix under trivFixEnv. -/
def exDbFixedOnce : Database :=
  { trigger_log := [mkLog 1 Action.INSERT State.FAILED false]
    trigger_log_archive := []
    error_tracks := [exTrackFixedOnce] }

/-- The ErrorTrack a fix of exSecondFailure creates. -/
def exTrackSecondFailure : ErrorTrack :=
  { trigger_log_id := 2, created_at := 2, table_name := "t", record_id := 1,
    action := Action.INSERT, state := State.FAILED, sf_message := none, is_initial := true }

/-- exDbSecondFailure after one completed fix of its id 2 row under trivFixEnv. -/
def exDbSecondFixed : Database :=
  { trigger_log := [mkLog 1 Action.INSERT State.FAILED false,
                    mkLog 2 Action.INSERT State.FAILED false]
    trigger_log_archive := []
    error_tracks := [exTrackSecondFailure] }

end HerokuConnect

namespace HerokuConnect

/-- Claim C1 development continues below; first a helper unfolding of may_fix. -/
theorem may_fix_iff (db : Database) (e : TriggerLog) :
    may_fix db e = true ↔
      ((e.action = Action.INSERT ∨ e.action = Action.UPDATE) ∧ e.state = State.FAILED ∧
        ¬ ∃ t ∈ db.error_tracks, t.trigger_log_id = e.id) := by
  unfold may_fix of_log FIXABLE_ACTIONS FIXABLE_STATES
  rw [Bool.and_eq_true, Bool.and_eq_true]
  constructor
  · rintro ⟨⟨ha, hs⟩, ht⟩
    refine ⟨?_, ?_, ?_⟩
    · cases hA : e.action
      case INSERT => exact Or.inl rfl
      case UPDATE => exact Or.inr rfl
      case DELETE => rw [hA] at ha; exact absurd ha (by decide)
    · cases hS : e.state <;> rw [hS] at hs <;> first
        | rfl
        | exact absurd hs (by decide)
    · rintro ⟨t, hmem, hid⟩
      rw [List.isEmpty_iff] at ht
      have : t ∈ db.error_tracks.filter (fun t => t.trigger_log_id == e.id) := by
        rw [List.mem_filter]
        exact ⟨hmem, by simp [hid]⟩
      rw [ht] at this
      exact absurd this (List.not_mem_nil t)
  · rintro ⟨ha, hs, ht⟩
    refine ⟨⟨?_, ?_⟩, ?_⟩
    · rcases ha with h | h <;> rw [h] <;> decide
    · rw [hs]; decide
    · rw [List.isEmpty_iff, List.filter_eq_nil_iff]
      intro t hmem
      simp only [beq_iff_eq]
      intro hid
      exact ht ⟨t, hmem, hid⟩

end HerokuConnect

namespace HerokuConnect

theorem mkTrackFor_is_initial (log : TriggerLog) (b : Bool)
    (dflts : ErrorTrack → ErrorTrack) : (mkTrackFor log b dflts).is_initial = b := rfl

theorem mkTrackFor_id (log : TriggerLog) (b : Bool)
    (dflts : ErrorTrack → ErrorTrack) : (mkTrackFor log b dflts).trigger_log_id = log.id :=
  rfl

theorem get_or_create_for_log_found (db : Database) (log : TriggerLog)
    (is_initial : Option Bool) (dflts : ErrorTrack → ErrorTrack) (t : ErrorTrack)
    (h : db.error_tracks.find? (fun tr => tr.trigger_log_id == log.id) = some t) :
    get_or_create_for_log db log is_initial dflts = (t, false, db) := by
  unfold get_or_create_for_log get_or_create
  rw [h]

theorem get_or_create_for_log_created (db : Database) (log : TriggerLog) (b : Bool)
    (dflts : ErrorTrack → ErrorTrack)
    (h : db.error_tracks.find? (fun tr => tr.trigger_log_id == log.id) = none) :
    get_or_create_for_log db log (some b) dflts =
      (mkTrackFor log b dflts, true,
        { db with error_tracks := db.error_tracks ++ [mkTrackFor log b dflts] }) := by
  unfold get_or_create_for_log get_or_create mkTrackFor
  rw [h]

theorem get_or_create_for_log_db_partitions (db : Database) (log : TriggerLog)
    (is_initial : Option Bool) (dflts : ErrorTrack → ErrorTrack) :
    ((get_or_create_for_log db log is_initial dflts).2.2).trigger_log = db.trigger_log ∧
    ((get_or_create_for_log db log is_initial dflts).2.2).trigger_log_archive
      = db.trigger_log_archive := by
  cases h : db.error_tracks.find? (fun tr => tr.trigger_log_id == log.id) with
  | some t => rw [get_or_create_for_log_found db log is_initial dflts t h]; exact ⟨rfl, rfl⟩
  | none =>
    cases is_initial with
    | some b => rw [get_or_create_for_log_created db log b dflts h]; exact ⟨rfl, rfl⟩
    | none =>
      unfold get_or_create_for_log get_or_create
      rw [h]
      exact ⟨rfl, rfl⟩

theorem trackResults_partitions (results : List TriggerLog) (db : Database) :
    (trackResults results db).trigger_log = db.trigger_log ∧
    (trackResults results db).trigger_log_archive = db.trigger_log_archive := by
  induction results generalizing db with
  | nil => exact ⟨rfl, rfl⟩
  | cons r rs ih =>
    have hstep : trackResults (r :: rs) db
        = trackResults rs ((get_or_create_for_log db r (some false) (fun t => t)).2.2) :=
      rfl
    rw [hstep]
    rcases ih ((get_or_create_for_log db r (some false) (fun t => t)).2.2) with ⟨h1, h2⟩
    rcases get_or_create_for_log_db_partitions db r (some false) (fun t => t) with ⟨g1, g2⟩
    exact ⟨h1.trans g1, h2.trans g2⟩

theorem trackResults_shape (results : List TriggerLog) (db : Database) :
    ∃ new, (trackResults results db).error_tracks = db.error_tracks ++ new ∧
      ∀ t ∈ new, t.is_initial = false := by
  induction results generalizing db with
  | nil => exact ⟨[], by simp [trackResults], by simp⟩
  | cons r rs ih =>
    have hstep : trackResults (r :: rs) db
        = trackResults rs ((get_or_create_for_log db r (some false) (fun t => t)).2.2) :=
      rfl
    cases h : db.error_tracks.find? (fun tr => tr.trigger_log_id == r.id) with
    | some t =>
      rw [hstep, get_or_create_for_log_found db r (some false) (fun t => t) t h]
      exact ih db
    | none =>
      rw [hstep, get_or_create_for_log_created db r false (fun t => t) h]
      rcases ih { db with error_tracks :=
          db.error_tracks ++ [mkTrackFor r false (fun t => t)] } with ⟨new1, heq, hall⟩
      refine ⟨mkTrackFor r false (fun t => t) :: new1, ?_, ?_⟩
      · rw [heq]
        simp [List.append_assoc]
      · intro t ht
        rcases List.mem_cons.mp ht with h1 | h1
        · rw [h1]; exact mkTrackFor_is_initial r false (fun t => t)
        · exact hall t h1

theorem trackResults_count_preserved (results : List TriggerLog) (db : Database) (x : Int)
    (h : ∃ t ∈ db.error_tracks, t.trigger_log_id = x) :
    (trackResults results db).error_tracks.countP (fun t => t.trigger_log_id == x)
        = db.error_tracks.countP (fun t => t.trigger_log_id == x) ∧
      ∃ t ∈ (trackResults results db).error_tracks, t.trigger_log_id = x := by
  induction results generalizing db with
  | nil => exact ⟨rfl, h⟩
  | cons r rs ih =>
    have hstep : trackResults (r :: rs) db
        = trackResults rs ((get_or_create_for_log db r (some false) (fun t => t)).2.2) :=
      rfl
    cases hf : db.error_tracks.find? (fun tr => tr.trigger_log_id == r.id) with
    | some t =>
      rw [hstep, get_or_create_for_log_found db r (some false) (fun t => t) t hf]
      exact ih db h
    | none =>
      rw [hstep, get_or_create_for_log_created db r false (fun t => t) hf]
      have hne : r.id ≠ x := by
        intro hrx
        rcases h with ⟨t, hmem, htx⟩
        have := (List.find?_eq_none.mp hf) t hmem
        apply this
        rw [beq_iff_eq, htx, hrx]
      have hcount : (db.error_tracks ++ [mkTrackFor r false (fun t => t)]).countP
          (fun t => t.trigger_log_id == x)
          = db.error_tracks.countP (fun t => t.trigger_log_id == x) := by
        rw [List.countP_append]
        have hbeq : ((mkTrackFor r false (fun t => t)).trigger_log_id == x) = false := by
          rw [beq_eq_false_iff_ne, mkTrackFor_id]; exact hne
        simp [List.countP, List.countP.go, hbeq]
      have hmem2 : ∃ t ∈ db.error_tracks ++ [mkTrackFor r false (fun t => t)],
          t.trigger_log_id = x := by
        rcases h with ⟨t, hmem, htx⟩
        exact ⟨t, List.mem_append_left _ hmem, htx⟩
      rcases ih { db with error_tracks :=
          db.error_tracks ++ [mkTrackFor r false (fun t => t)] } hmem2 with ⟨hc, hm⟩
      exact ⟨hc.trans hcount, hm⟩

end HerokuConnect

namespace HerokuConnect

theorem fix_ok_inv (env : FixEnv) (db : Database) (e : TriggerLog) (d : List String)
    (u : List (String × String)) (db2 : Database) (eff : List FixStep)
    (hno : db.error_tracks.find? (fun t => t.trigger_log_id == e.id) = none)
    (hfix : fix env db e d u = Except.ok (db2, eff)) :
    ∃ locked results rest,
      (partitionList db e).find? (fun l => l.id == e.id) = some locked ∧
      locked.id = e.id ∧
      (e.action = Action.INSERT ∨ e.action = Action.UPDATE) ∧
      (if e.action == Action.INSERT then fix_insert env d u else fix_update env d u)
        = Except.ok (results, eff) ∧
      db2.trigger_log = db.trigger_log ++ results ∧
      db2.trigger_log_archive = db.trigger_log_archive ∧
      db2.error_tracks = db.error_tracks ++ mkTrackFor locked true (fun t => t) :: rest ∧
      (∀ t ∈ rest, t.is_initial = false) ∧
      db2.error_tracks.countP (fun t => t.trigger_log_id == e.id) = 1 := by
  unfold fix at hfix
  split at hfix
  · exact absurd hfix (by simp)
  next hcond =>
    have hact : e.action = Action.INSERT ∨ e.action = Action.UPDATE := by
      cases hA : e.action
      case INSERT => exact Or.inl rfl
      case UPDATE => exact Or.inr rfl
      case DELETE => rw [hA] at hcond; exact absurd rfl hcond
    split at hfix
    · exact absurd hfix (by simp)
    next locked hfind =>
      have hid : locked.id = e.id := by simpa using List.find?_some hfind
      have hno2 : db.error_tracks.find? (fun tr => tr.trigger_log_id == locked.id)
          = none := by
        rw [hid]; exact hno
      have hcreated := get_or_create_for_log_created db locked true (fun t => t) hno2
      split at hfix
      next t0 db1 heq =>
        rw [hcreated] at heq
        exact absurd (congrArg (fun p => p.2.1) heq) (by simp)
      next t0 db1 heq =>
        rw [hcreated] at heq
        have hdb1 : db1 = { db with error_tracks :=
            db.error_tracks ++ [mkTrackFor locked true (fun t => t)] } :=
          (congrArg (fun p => p.2.2) heq).symm
        split at hfix
        · exact absurd hfix (by simp)
        next results steps hfixer =>
          have hinj := hfix
          rw [Except.ok.injEq, Prod.mk.injEq] at hinj
          rcases hinj with ⟨hdb2, heff⟩
          subst heff
          subst hdb1
          have hdb2eq : db2 = trackResults results
              { db with
                trigger_log := db.trigger_log ++ results
                error_tracks :=
                  db.error_tracks ++ [mkTrackFor locked true (fun t => t)] } := by
            rw [← hdb2]
          rcases trackResults_shape results
              { db with
                trigger_log := db.trigger_log ++ results
                error_tracks :=
                  db.error_tracks ++ [mkTrackFor locked true (fun t => t)] }
            with ⟨new1, hshape, hfalse⟩
          rcases trackResults_partitions results
              { db with
                trigger_log := db.trigger_log ++ results
                error_tracks :=
                  db.error_tracks ++ [mkTrackFor locked true (fun t => t)] }
            with ⟨hlive, harch⟩
          have hmemMid : ∃ t ∈
              (db.error_tracks ++ [mkTrackFor locked true (fun t => t)]),
              t.trigger_log_id = e.id := by
            refine ⟨mkTrackFor locked true (fun t => t), ?_, ?_⟩
            · exact List.mem_append_right _ (List.mem_singleton.mpr rfl)
            · rw [mkTrackFor_id]; exact hid
          rcases trackResults_count_preserved results
              { db with
                trigger_log := db.trigger_log ++ results
                error_tracks :=
                  db.error_tracks ++ [mkTrackFor locked true (fun t => t)] }
              e.id hmemMid
            with ⟨hcount, _⟩
          have hcountMid : (db.error_tracks ++
              [mkTrackFor locked true (fun t => t)]).countP
              (fun t => t.trigger_log_id == e.id) = 1 := by
            rw [List.countP_append]
            have h0 : db.error_tracks.countP (fun t => t.trigger_log_id == e.id) = 0 :=
              List.countP_eq_zero.mpr (List.find?_eq_none.mp hno)
            have h1 : ((mkTrackFor locked true (fun t => t)).trigger_log_id == e.id)
                = true := by
              rw [mkTrackFor_id, hid]
              exact beq_self_eq_true e.id
            rw [h0]
            simp [List.countP_cons, h1]
          refine ⟨locked, results, new1, hfind, hid, hact, hfixer, ?_, ?_, ?_, ?_, ?_⟩
          · rw [hdb2eq, hlive]
          · rw [hdb2eq, harch]
          · rw [hdb2eq, hshape]
            show db.error_tracks ++ [mkTrackFor locked true (fun t => t)] ++ new1
                = db.error_tracks ++ mkTrackFor locked true (fun t => t) :: new1
            rw [List.append_assoc]
            rfl
          · exact hfalse
          · rw [hdb2eq, hcount, hcountMid]

end HerokuConnect

namespace HerokuConnect

theorem exists_track_find_some (db : Database) (x : Int)
    (h : ∃ t ∈ db.error_tracks, t.trigger_log_id = x) :
    ∃ t2, db.error_tracks.find? (fun tr => tr.trigger_log_id == x) = some t2 := by
  cases hf : db.error_tracks.find? (fun tr => tr.trigger_log_id == x) with
  | some t2 => exact ⟨t2, rfl⟩
  | none =>
    rcases h with ⟨t, hmem, htx⟩
    have := List.find?_eq_none.mp hf t hmem
    exact absurd (by rw [htx]; exact beq_self_eq_true x) this

theorem fix_with_existing_track (env : FixEnv) (db : Database) (e : TriggerLog)
    (d : List String) (u : List (String × String)) (locked : TriggerLog) (t : ErrorTrack)
    (hact : e.action = Action.INSERT ∨ e.action = Action.UPDATE)
    (hfind : (partitionList db e).find? (fun l => l.id == e.id) = some locked)
    (hfound : db.error_tracks.find? (fun tr => tr.trigger_log_id == locked.id) = some t) :
    fix env db e d u = Except.ok (db, []) := by
  unfold fix
  have hcond : (!(e.action == Action.INSERT || e.action == Action.UPDATE)) = false := by
    rcases hact with hA | hA <;> rw [hA] <;> decide
  rw [hcond]
  simp only [Bool.false_eq_true, if_false]
  split
  next hnone =>
    rw [hfind] at hnone
    exact absurd hnone (by simp)
  next l2 hsome =>
    rw [hfind] at hsome
    have hl2 : locked = l2 := by injection hsome
    subst hl2
    rw [get_or_create_for_log_found db locked (some true) (fun t => t) t hfound]

end HerokuConnect

namespace HerokuConnect

/-- C1: constructing a HerokuModelSyncError (classification) yields the Fixable
variant iff the entry's action is INSERT or UPDATE, its state is FAILED, and no
ErrorTrack row with trigger_log_id equal to the entry's id exists; in every other
case it yields the plain (Unfixable) variant. -/
theorem classify_fixable_iff (db : Database) (e : TriggerLog) :
    (classify db e = SyncError.Fixable e ↔
      ((e.action = Action.INSERT ∨ e.action = Action.UPDATE) ∧ e.state = State.FAILED ∧
        ¬ ∃ t ∈ db.error_tracks, t.trigger_log_id = e.id)) ∧
    (classify db e = SyncError.Fixable e ∨ classify db e = SyncError.Unfixable e) := by
  constructor
  · rw [← may_fix_iff db e]
    unfold classify
    by_cases hm : may_fix db e = true
    · simp [hm]
    · simp [hm]
  · unfold classify
    by_cases hm : may_fix db e = true <;> simp [hm]

/-- C2: after one committed fix of an originally untracked entry, a second fix call
on the same entry id finds the existing ErrorTrack, observes created = False and
returns leaving the store unchanged and performing no capture or model write; the
store holds exactly one ErrorTrack with that trigger_log_id. -/
theorem fix_twice_idempotent (env : FixEnv) (db : Database) (e : TriggerLog)
    (d : List String) (u : List (String × String)) (db2 : Database) (eff : List FixStep)
    (hno : db.error_tracks.find? (fun t => t.trigger_log_id == e.id) = none)
    (hfix : fix env db e d u = Except.ok (db2, eff)) :
    fix env db2 e d u = Except.ok (db2, []) ∧
    db2.error_tracks.countP (fun t => t.trigger_log_id == e.id) = 1 := by
  rcases fix_ok_inv env db e d u db2 eff hno hfix with
    ⟨locked, results, rest, hfind, hid, hact, hfixer, hlive, harch, htracks, hrest, hcount⟩
  refine ⟨?_, hcount⟩
  have hfind2 : (partitionList db2 e).find? (fun l => l.id == e.id) = some locked := by
    unfold partitionList at hfind ⊢
    by_cases hA : e.is_archived = true
    · simp only [hA, if_true] at hfind ⊢
      rw [harch]
      exact hfind
    · simp only [Bool.not_eq_true] at hA
      simp only [hA, Bool.false_eq_true, if_false] at hfind ⊢
      rw [hlive, List.find?_append, hfind]
      rfl
  have hfound : ∃ t2, db2.error_tracks.find?
      (fun tr => tr.trigger_log_id == locked.id) = some t2 := by
    apply exists_track_find_some
    refine ⟨mkTrackFor locked true (fun t => t), ?_, mkTrackFor_id locked true (fun t => t)⟩
    rw [htracks]
    exact List.mem_append_right _ (List.mem_cons_self _ _)
  rcases hfound with ⟨t2, hfound⟩
  exact fix_with_existing_track env db2 e d u locked t2 hact hfind2 hfound

/-- Witness for fix_twice_idempotent at a concrete store and environment. -/
theorem fix_twice_idempotent_witness :
    exDbFailedInsert.error_tracks.find?
        (fun t => t.trigger_log_id == exFailedInsert.id) = none ∧
    fix trivFixEnv exDbFailedInsert exFailedInsert [] []
        = Except.ok (exDbFixedOnce, [FixStep.capture_insert_call []]) ∧
    (fix trivFixEnv exDbFixedOnce exFailedInsert [] [] = Except.ok (exDbFixedOnce, []) ∧
      exDbFixedOnce.error_tracks.countP
        (fun t => t.trigger_log_id == exFailedInsert.id) = 1) :=
  ⟨rfl, rfl,
    fix_twice_idempotent trivFixEnv exDbFailedInsert exFailedInsert [] []
      exDbFixedOnce [FixStep.capture_insert_call []] rfl rfl⟩

end HerokuConnect

namespace HerokuConnect

/-- C3 counterexample: the entry's state was changed concurrently to SUCCESS (no
ErrorTrack exists), yet fix does not abort — the locked re-read matches by id alone,
an ErrorTrack (copying the current SUCCESS state) is created and a capture runs. -/
theorem fix_no_state_filter_counterexample :
    ((partitionList exDbRaced exStaleLog).find?
        (fun l => l.id == exStaleLog.id)).map (fun l => l.state)
      = some State.SUCCESS ∧
    fix trivFixEnv exDbRaced exStaleLog [] []
      = Except.ok
          ({ trigger_log := [mkLog 1 Action.INSERT State.SUCCESS false]
             trigger_log_archive := []
             error_tracks :=
               [{ trigger_log_id := 1, created_at := 1, table_name := "t",
                  record_id := 1, action := Action.INSERT, state := State.SUCCESS,
                  sf_message := none, is_initial := true }] },
           [FixStep.capture_insert_call []]) :=
  ⟨rfl, rfl⟩

/-- C3 (amended): inside its transaction fix re-reads and row-locks the target entry
by id only — there is no state = FAILED condition — and it aborts silently exactly
when an ErrorTrack for the id already exists: with a track present it returns with no
store change and no capture, and without one a committed fix always creates a fresh
ErrorTrack for the id, whatever state the locked row carries. -/
theorem fix_abort_iff_existing_track (env : FixEnv) (db : Database) (e : TriggerLog)
    (d : List String) (u : List (String × String)) (l : TriggerLog)
    (hact : e.action = Action.INSERT ∨ e.action = Action.UPDATE)
    (hfind : (partitionList db e).find? (fun x => x.id == e.id) = some l) :
    ((∃ t ∈ db.error_tracks, t.trigger_log_id = e.id) →
      fix env db e d u = Except.ok (db, [])) ∧
    (db.error_tracks.find? (fun t => t.trigger_log_id == e.id) = none →
      ∀ db2 eff, fix env db e d u = Except.ok (db2, eff) →
        ∃ t ∈ db2.error_tracks, t.trigger_log_id = e.id ∧ t ∉ db.error_tracks) := by
  constructor
  · intro hex
    have hid : l.id = e.id := by simpa using List.find?_some hfind
    rcases exists_track_find_some db e.id hex with ⟨t2, hfound⟩
    have hfound2 : db.error_tracks.find?
        (fun tr => tr.trigger_log_id == l.id) = some t2 := by
      rw [hid]; exact hfound
    exact fix_with_existing_track env db e d u l t2 hact hfind hfound2
  · intro hno db2 eff hfix
    rcases fix_ok_inv env db e d u db2 eff hno hfix with
      ⟨locked, results, rest, hfind2, hid, _, _, _, _, htracks, _, _⟩
    refine ⟨mkTrackFor locked true (fun t => t), ?_, ?_, ?_⟩
    · rw [htracks]
      exact List.mem_append_right _ (List.mem_cons_self _ _)
    · rw [mkTrackFor_id]; exact hid
    · intro hmem
      have hnot := List.find?_eq_none.mp hno _ hmem
      apply hnot
      rw [mkTrackFor_id, hid]
      exact beq_self_eq_true e.id

/-- Witness for fix_abort_iff_existing_track: exDbFixedOnce already tracks id 1. -/
theorem fix_abort_iff_existing_track_witness :
    (exFailedInsert.action = Action.INSERT ∨ exFailedInsert.action = Action.UPDATE) ∧
    (partitionList exDbFixedOnce exFailedInsert).find?
        (fun x => x.id == exFailedInsert.id) = some exFailedInsert ∧
    (((∃ t ∈ exDbFixedOnce.error_tracks, t.trigger_log_id = exFailedInsert.id) →
        fix trivFixEnv exDbFixedOnce exFailedInsert [] []
          = Except.ok (exDbFixedOnce, [])) ∧
      (exDbFixedOnce.error_tracks.find?
          (fun t => t.trigger_log_id == exFailedInsert.id) = none →
        ∀ db2 eff,
          fix trivFixEnv exDbFixedOnce exFailedInsert [] [] = Except.ok (db2, eff) →
          ∃ t ∈ db2.error_tracks, t.trigger_log_id = exFailedInsert.id ∧
            t ∉ exDbFixedOnce.error_tracks)) :=
  ⟨Or.inl rfl, rfl,
    fix_abort_iff_existing_track trivFixEnv exDbFixedOnce exFailedInsert [] []
      exFailedInsert (Or.inl rfl) rfl⟩

/-- C4: the initial-failure query contradicts the claimed characterization (which is
also the oracle of tests/test_triggerlog.py and the method's own docstring).  In
exDbArchSuccess the only earlier failure (archived id 1) is resolved by the archived
SUCCESS id 2, so entry 5 should be initial — the query marks nothing, because its
previous_archived_success_id subquery reads the live table.  In exDbUnresolvedArch
the archived failure id 3 is unresolved, so entry 5 should not be initial — the query
marks it, because it compares the latest live success (id 2) against each previous
failure separately.  On the claim's single-partition example the query does answer as
claimed: among ids 0,1,2 SUCCESS and 3,4 FAILED exactly entry 3 is initial. -/
theorem initial_failures_cross_partition_bug :
    isInitialFailureSpec exDbArchSuccess (mkLog 5 Action.UPDATE State.FAILED false)
        = true ∧
    (initial_failures exDbArchSuccess exDbArchSuccess.trigger_log).map (fun l => l.id)
        = [] ∧
    isInitialFailureSpec exDbUnresolvedArch (mkLog 5 Action.UPDATE State.FAILED false)
        = false ∧
    (initial_failures exDbUnresolvedArch exDbUnresolvedArch.trigger_log).map
        (fun l => l.id) = [1, 5] ∧
    (initial_failures exDbStreak exDbStreak.trigger_log).map (fun l => l.id) = [3] :=
  ⟨rfl, rfl, rfl, rfl, rfl⟩

/-- C5 counterexample: entry id 2 of exDbSecondFailure is not an initial failure (a
previous unresolved failure id 1 exists) — neither for the code's initial_failures
query nor for the spec's detector — yet the ErrorTrack created by fix for it carries
is_initial = true: the flag is not computed by the detector at fix time. -/
theorem fix_is_initial_counterexample :
    (initial_failures exDbSecondFailure exDbSecondFailure.trigger_log).map
        (fun l => l.id) = [1] ∧
    isInitialFailureSpec exDbSecondFailure exSecondFailure = false ∧
    fix trivFixEnv exDbSecondFailure exSecondFailure [] []
        = Except.ok (exDbSecondFixed, [FixStep.capture_insert_call []]) ∧
    exDbSecondFixed.error_tracks.map (fun t => (t.trigger_log_id, t.is_initial))
        = [(2, true)] :=
  ⟨rfl, rfl, rfl, rfl⟩

/-- C5 (amended): a committed fix of an untracked entry creates that entry's
ErrorTrack with is_initial = true unconditionally — fix passes the literal True,
the Initial-Failure Detector is not consulted — and every ErrorTrack created for the
newly produced log entries carries is_initial = false. -/
theorem fix_is_initial_literal_true (env : FixEnv) (db : Database) (e : TriggerLog)
    (d : List String) (u : List (String × String)) (db2 : Database) (eff : List FixStep)
    (hno : db.error_tracks.find? (fun t => t.trigger_log_id == e.id) = none)
    (hfix : fix env db e d u = Except.ok (db2, eff)) :
    ∃ t0 rest, db2.error_tracks = db.error_tracks ++ t0 :: rest ∧
      t0.trigger_log_id = e.id ∧ t0.is_initial = true ∧
      ∀ t ∈ rest, t.is_initial = false := by
  rcases fix_ok_inv env db e d u db2 eff hno hfix with
    ⟨locked, results, rest, _, hid, _, _, _, _, htracks, hrest, _⟩
  exact ⟨mkTrackFor locked true (fun t => t), rest, htracks,
    by rw [mkTrackFor_id]; exact hid, rfl, hrest⟩

/-- Witness for fix_is_initial_literal_true on the concrete second-failure store. -/
theorem fix_is_initial_literal_true_witness :
    exDbSecondFailure.error_tracks.find?
        (fun t => t.trigger_log_id == exSecondFailure.id) = none ∧
    fix trivFixEnv exDbSecondFailure exSecondFailure [] []
        = Except.ok (exDbSecondFixed, [FixStep.capture_insert_call []]) ∧
    (∃ t0 rest,
      exDbSecondFixed.error_tracks = exDbSecondFailure.error_tracks ++ t0 :: rest ∧
      t0.trigger_log_id = exSecondFailure.id ∧ t0.is_initial = true ∧
      ∀ t ∈ rest, t.is_initial = false) :=
  ⟨rfl, rfl,
    fix_is_initial_literal_true trivFixEnv exDbSecondFailure exSecondFailure [] []
      exDbSecondFixed [FixStep.capture_insert_call []] rfl rfl⟩

/-- C6: when an ErrorTrack for the log id already exists, any subsequent
get_or_create_for_log call — whatever is_initial argument and defaults overrides it
receives — returns that existing track with created = False and leaves the store,
hence every stored field and in particular is_initial, unchanged. -/
theorem get_or_create_for_log_existing_frame (db : Database) (log : TriggerLog)
    (is_initial : Option Bool) (defaults : ErrorTrack → ErrorTrack) (t : ErrorTrack)
    (h : db.error_tracks.find? (fun tr => tr.trigger_log_id == log.id) = some t) :
    get_or_create_for_log db log is_initial defaults = (t, false, db) :=
  get_or_create_for_log_found db log is_initial defaults t h

/-- Witness for get_or_create_for_log_existing_frame on the tracked store. -/
theorem get_or_create_for_log_existing_frame_witness :
    exDbFixedOnce.error_tracks.find?
        (fun tr => tr.trigger_log_id == exFailedInsert.id) = some exTrackFixedOnce ∧
    get_or_create_for_log exDbFixedOnce exFailedInsert (some false) (fun t => t)
        = (exTrackFixedOnce, false, exDbFixedOnce) :=
  ⟨rfl,
    get_or_create_for_log_existing_frame exDbFixedOnce exFailedInsert (some false)
      (fun t => t) exTrackFixedOnce rfl⟩

end HerokuConnect

namespace HerokuConnect

theorem fix_update_ok_steps_ne_nil (env : FixEnv) (u : List (String × String))
    (more : List TriggerLog) (steps : List FixStep)
    (h : fix_update env [] u = Except.ok (more, steps)) : steps ≠ [] := by
  unfold fix_update at h
  cases hu : u with
  | nil =>
    subst hu
    simp only [List.map_nil, List.nil_append, List.isEmpty_nil, if_true] at h
    rw [Except.ok.injEq, Prod.mk.injEq] at h
    rw [← h.2]
    simp
  | cons p ps =>
    subst hu
    simp only [List.map_cons, List.nil_append, List.isEmpty_cons,
      Bool.false_eq_true, if_false] at h
    split at h
    · exact absurd h (by simp)
    next model hmodel =>
      rw [Except.ok.injEq, Prod.mk.injEq] at h
      rw [← h.2]
      intro hcontra
      rw [List.append_eq_nil] at hcontra
      have := hcontra.2
      simp at this

end HerokuConnect

namespace HerokuConnect

/-- C7: an Insert fix with delay_fields = () and update_model = () performs exactly
one capture — a capture-insert with an empty exclusion set — and no second capture;
with non-empty delay_fields it performs two phases: a capture-insert excluding
delay_fields together with the update_model keys, followed by a non-empty update-fix
step sequence that backfills the delayed fields. -/
theorem fix_insert_phases (env : FixEnv) (db : Database) (e : TriggerLog)
    (d : List String) (u : List (String × String)) (db2 : Database) (eff : List FixStep)
    (hact : e.action = Action.INSERT)
    (hno : db.error_tracks.find? (fun t => t.trigger_log_id == e.id) = none)
    (hfix : fix env db e d u = Except.ok (db2, eff)) :
    (d = [] → u = [] → eff = [FixStep.capture_insert_call []]) ∧
    (d ≠ [] → ∃ steps2 more,
      eff = FixStep.capture_insert_call (d ++ u.map Prod.fst) :: steps2 ∧
      steps2 ≠ [] ∧ fix_update env [] u = Except.ok (more, steps2)) := by
  rcases fix_ok_inv env db e d u db2 eff hno hfix with
    ⟨locked, results, rest, _, _, _, hfixer, _, _, _, _, _⟩
  rw [hact] at hfixer
  simp only [beq_self_eq_true, if_true] at hfixer
  constructor
  · rintro rfl rfl
    unfold fix_insert at hfixer
    simp only [List.map_nil, List.nil_append, List.isEmpty_nil, Bool.and_self,
      if_true] at hfixer
    rw [Except.ok.injEq, Prod.mk.injEq] at hfixer
    exact hfixer.2.symm
  · intro hd
    unfold fix_insert at hfixer
    have hde : d.isEmpty = false := List.isEmpty_eq_false.mpr hd
    rw [hde] at hfixer
    simp only [Bool.false_and, Bool.false_eq_true, if_false] at hfixer
    split at hfixer
    · exact absurd hfixer (by simp)
    next more2 steps2 hupd =>
      rw [Except.ok.injEq, Prod.mk.injEq] at hfixer
      exact ⟨steps2, more2, hfixer.2.symm,
        fix_update_ok_steps_ne_nil env u more2 steps2 hupd, hupd⟩

/-- Witness for fix_insert_phases with one delayed field on a failed insert. -/
theorem fix_insert_phases_witness :
    exFailedInsert.action = Action.INSERT ∧
    exDbFailedInsert.error_tracks.find?
        (fun t => t.trigger_log_id == exFailedInsert.id) = none ∧
    fix trivFixEnv exDbFailedInsert exFailedInsert ["x"] []
        = Except.ok (exDbFixedOnce,
            [FixStep.capture_insert_call ["x"], FixStep.capture_update_call []]) ∧
    ((["x"] = ([] : List String) → ([] : List (String × String)) = [] →
        [FixStep.capture_insert_call ["x"], FixStep.capture_update_call []]
          = [FixStep.capture_insert_call []]) ∧
      ((["x"] : List String) ≠ [] → ∃ steps2 more,
        [FixStep.capture_insert_call ["x"], FixStep.capture_update_call []]
          = FixStep.capture_insert_call
              (["x"] ++ ([] : List (String × String)).map Prod.fst) :: steps2 ∧
        steps2 ≠ [] ∧
        fix_update trivFixEnv [] [] = Except.ok (more, steps2))) :=
  ⟨rfl, rfl, rfl,
    fix_insert_phases trivFixEnv exDbFailedInsert exFailedInsert ["x"] []
      exDbFixedOnce [FixStep.capture_insert_call ["x"], FixStep.capture_update_call []]
      rfl rfl rfl⟩

end HerokuConnect

namespace HerokuConnect

theorem includedFieldNames_mem (fields : List ModelField) (exclude : List String)
    (n : String) :
    n ∈ includedFieldNames fields exclude ↔
      ∃ f ∈ fields, f.name = n ∧
        ¬(f.name ∈ exclude ∨ ∃ a, f.attname = some a ∧ a ∈ exclude) := by
  unfold includedFieldNames
  rw [List.mem_map]
  constructor
  · rintro ⟨f, hmem, hname⟩
    rw [List.mem_filter] at hmem
    rcases hmem with ⟨hf, hcond⟩
    rw [Bool.not_eq_eq_eq_not, Bool.not_true, Bool.or_eq_false_iff] at hcond
    rcases hcond with ⟨h1, h2⟩
    refine ⟨f, hf, hname, ?_⟩
    rintro (hn | ⟨a, ha, hamem⟩)
    · have : exclude.contains f.name = true := List.elem_iff.mpr hn
      rw [this] at h1
      exact absurd h1 (by simp)
    · rw [ha] at h2
      have h2b : exclude.contains a = false := h2
      have hc : exclude.contains a = true := List.elem_iff.mpr hamem
      rw [h2b] at hc
      exact absurd hc (by simp)
  · rintro ⟨f, hf, hname, hnot⟩
    refine ⟨f, ?_, hname⟩
    rw [List.mem_filter]
    refine ⟨hf, ?_⟩
    rw [Bool.not_eq_eq_eq_not, Bool.not_true, Bool.or_eq_false_iff]
    constructor
    · cases hc : exclude.contains f.name
      · rfl
      · exact absurd (Or.inl (List.elem_iff.mp hc)) hnot
    · cases hatt : f.attname with
      | none => rfl
      | some a =>
        cases hc : exclude.contains a
        · exact hc
        · exact absurd (Or.inr ⟨a, hatt, List.elem_iff.mp hc⟩) hnot

/-- C8: for an Update fix with a non-empty excluded set, the follow-up
capture-update receives exactly the record's field set minus the excluded fields (a
field counting as excluded when its name, or its attname where present, is in
delay_fields or among the update_model keys), the call is issued precisely when this
set is non-empty, and no capture-update call with an empty inclusion list can occur
on this path. -/
theorem fix_update_field_exclusion (env : FixEnv) (d : List String)
    (u : List (String × String)) (model : ConnectedModel)
    (r : List TriggerLog) (eff : List FixStep)
    (hm : env.get_model = some model)
    (hx : (d ++ u.map Prod.fst) ≠ [])
    (hok : fix_update env d u = Except.ok (r, eff)) :
    (∀ fs, FixStep.capture_update_call fs ∈ eff →
      fs = includedFieldNames model.fields (d ++ u.map Prod.fst) ∧ fs ≠ []) ∧
    (includedFieldNames model.fields (d ++ u.map Prod.fst) ≠ [] →
      FixStep.capture_update_call
          (includedFieldNames model.fields (d ++ u.map Prod.fst)) ∈ eff) ∧
    (∀ n, n ∈ includedFieldNames model.fields (d ++ u.map Prod.fst) ↔
      ∃ f ∈ model.fields, f.name = n ∧
        ¬(f.name ∈ d ++ u.map Prod.fst ∨
          ∃ a, f.attname = some a ∧ a ∈ d ++ u.map Prod.fst)) := by
  have hxe : (d ++ u.map Prod.fst).isEmpty = false := List.isEmpty_eq_false.mpr hx
  unfold fix_update at hok
  simp only [hxe, Bool.false_eq_true, if_false, hm] at hok
  rw [Except.ok.injEq, Prod.mk.injEq] at hok
  have heff := hok.2
  refine ⟨?_, ?_, fun n => includedFieldNames_mem model.fields (d ++ u.map Prod.fst) n⟩
  · intro fs hfs
    rw [← heff] at hfs
    rcases List.mem_append.mp hfs with hcap | hsave
    · by_cases hinc : (includedFieldNames model.fields (d ++ u.map Prod.fst)).isEmpty
          = true
      · rw [if_pos hinc] at hcap
        exact absurd hcap (by simp)
      · rw [if_neg hinc] at hcap
        rcases List.mem_singleton.mp hcap with h
        have h1 : fs = includedFieldNames model.fields (d ++ u.map Prod.fst) := by
          injection h
        refine ⟨h1, ?_⟩
        rw [h1]
        rw [Bool.not_eq_true] at hinc
        exact List.isEmpty_eq_false.mp hinc
    · by_cases huem : u.isEmpty = true
      · rw [if_pos huem] at hsave
        exact absurd hsave (by simp)
      · rw [if_neg huem] at hsave
        rcases List.mem_singleton.mp hsave with h
        exact absurd h (by simp)
  · intro hinc
    rw [← heff]
    apply List.mem_append_left
    rw [if_neg (by rw [Bool.not_eq_true, List.isEmpty_eq_false]; exact hinc)]
    exact List.mem_singleton.mpr rfl

/-- Witness for fix_update_field_exclusion: delaying the amount field of the
two-field model leaves exactly the other field in the follow-up capture. -/
theorem fix_update_field_exclusion_witness :
    twoFieldFixEnv.get_model
        = some { fields :=
            [{ name := "amount", attname := some "amount" },
             { name := "other", attname := some "other" }] } ∧
    ((["amount"] ++ ([] : List (String × String)).map Prod.fst) : List String) ≠ [] ∧
    fix_update twoFieldFixEnv ["amount"] []
        = Except.ok ([], [FixStep.capture_update_call ["other"]]) ∧
    ((∀ fs, FixStep.capture_update_call fs ∈ [FixStep.capture_update_call ["other"]] →
        fs = includedFieldNames
            [{ name := "amount", attname := some "amount" },
             { name := "other", attname := some "other" }]
            (["amount"] ++ ([] : List (String × String)).map Prod.fst) ∧ fs ≠ []) ∧
      (includedFieldNames
          [{ name := "amount", attname := some "amount" },
           { name := "other", attname := some "other" }]
          (["amount"] ++ ([] : List (String × String)).map Prod.fst) ≠ [] →
        FixStep.capture_update_call
            (includedFieldNames
              [{ name := "amount", attname := some "amount" },
               { name := "other", attname := some "other" }]
              (["amount"] ++ ([] : List (String × String)).map Prod.fst))
          ∈ [FixStep.capture_update_call ["other"]]) ∧
      (∀ n, n ∈ includedFieldNames
            [{ name := "amount", attname := some "amount" },
             { name := "other", attname := some "other" }]
            (["amount"] ++ ([] : List (String × String)).map Prod.fst) ↔
        ∃ f ∈ [({ name := "amount", attname := some "amount" } : ModelField),
               { name := "other", attname := some "other" }],
          f.name = n ∧
            ¬(f.name ∈ ["amount"] ++ ([] : List (String × String)).map Prod.fst ∨
              ∃ a, f.attname = some a ∧
                a ∈ ["amount"] ++ ([] : List (String × String)).map Prod.fst))) :=
  ⟨rfl, by decide, rfl,
    fix_update_field_exclusion twoFieldFixEnv ["amount"] []
      { fields :=
          [{ name := "amount", attname := some "amount" },
           { name := "other", attname := some "other" }] }
      [] [FixStep.capture_update_call ["other"]] rfl (by decide) rfl⟩

end HerokuConnect

namespace HerokuConnect

/-- C9 counterexample: a table that belongs to no connected model, captured with an
empty exclude_fields / update_fields, raises no LookupError — the registry lookup
sits under the `if exclude_fields:` / `if update_fields:` guard, so the calls return
whatever the raw capture query produces. -/
theorem capture_lookup_not_raised_counterexample :
    emptyCaptureEnv.connected_tables = [] ∧
    capture_insert_from_model emptyCaptureEnv ("t") 1 [] = Except.ok [] ∧
    capture_update_from_model emptyCaptureEnv ("t") 1 [] = Except.ok [] :=
  ⟨rfl, rfl, rfl⟩

/-- C9 (amended): whenever capture_insert_from_model or capture_update_from_model is
called with a non-empty exclude_fields / update_fields and a table_name that belongs
to no connected model, the registry lookup raises LookupError, which propagates to
the caller unconverted; with empty field arguments no lookup is performed and no
LookupError can arise. -/
theorem capture_unknown_table_lookup_error (env : CaptureEnv) (table_name : String)
    (record_id : Int) (fields : List String)
    (hne : fields ≠ [])
    (hnc : env.connected_tables.contains table_name = false) :
    capture_insert_from_model env table_name record_id fields
        = Except.error CaptureExc.lookup_error ∧
    capture_update_from_model env table_name record_id fields
        = Except.error CaptureExc.lookup_error := by
  have hf : fields.isEmpty = false := List.isEmpty_eq_false.mpr hne
  unfold capture_insert_from_model capture_update_from_model
  rw [hf, hnc]
  exact ⟨rfl, rfl⟩

/-- Witness for capture_unknown_table_lookup_error on the empty registry. -/
theorem capture_unknown_table_lookup_error_witness :
    (["f"] : List String) ≠ [] ∧
    emptyCaptureEnv.connected_tables.contains ("t") = false ∧
    (capture_insert_from_model emptyCaptureEnv ("t") 1 ["f"]
        = Except.error CaptureExc.lookup_error ∧
      capture_update_from_model emptyCaptureEnv ("t") 1 ["f"]
        = Except.error CaptureExc.lookup_error) :=
  ⟨by decide, rfl,
    capture_unknown_table_lookup_error emptyCaptureEnv ("t") 1 ["f"] (by decide) rfl⟩

/-- C10: the log property returns the live row with the track's trigger_log_id when
one exists (taking precedence when the id is in both partitions: the id 5 lookup
yields the live FAILED row, not the archived SUCCESS row), otherwise the archived
row, otherwise none — while the heroku_connect/db/models/errors.py snapshot of the
same property raises AttributeError as soon as the live lookup misses, because its
fallback calls filter on the TriggerLogArchive class itself. -/
theorem track_log_partition_lookup :
    trackLog exDbLogLookup (mkTrack 1) = some (mkLog 1 Action.INSERT State.FAILED false) ∧
    trackLog exDbLogLookup (mkTrack 7) = some (mkLog 7 Action.UPDATE State.FAILED true) ∧
    trackLog exDbLogLookup (mkTrack 5) = some (mkLog 5 Action.UPDATE State.FAILED false) ∧
    trackLog exDbLogLookup (mkTrack 9) = none ∧
    trackLogDbSnapshot exDbLogLookup (mkTrack 7) = Except.error PyExc.attribute_error :=
  ⟨rfl, rfl, rfl, rfl, rfl⟩

end HerokuConnect
